import Mathlib

/-!
Verification of the `rust-async-kqueue` reactor (src/src/main.rs).

The program is a minimal single-threaded kqueue reactor: `AsyncQueue::add_op`
boxes an `Op`, hands the raw box pointer to the kernel as the `udata` of a
one-shot `EVFILT_READ` registration, and `AsyncQueue::each_event` polls for
ready events, reclaims each `Op` from its `udata` pointer with
`Box::from_raw`, invokes the handler, and re-registers the handler's `Some`
result.  `MyHandler` drives the listening → reading state machine.

The shallow embedding below models:
  * the kernel facility as an explicit pending-token set with one-shot
    delivery semantics (a token fires at most once and is auto-deregistered);
  * the `Box` heap as an association list from token ids to live `Op`s
    (`Box::into_raw` = allocate, `Box::from_raw` = remove);
  * the TCP socket seen by the Read arm as the list of bytes the kernel has
    buffered plus the behaviour of `read` once that buffer is drained
    (`read` returns all buffered bytes up to the requested space);
  * Rust panics (`unwrap`, `panic!`) as an `Except` error that aborts the run.
-/

namespace AsyncKqueue

/-- `enum OpState { Listen, Read, Write }` from the source. -/
inductive OpState
  | listen
  | read
  | write
deriving DecidableEq, Repr

/-- `struct Op { fd: libc::c_int, state: OpState }` from the source. -/
structure Op where
  fd : Int
  state : OpState
deriving DecidableEq, Repr

/-- macOS `EV_ADD` flag value (0x0001). -/
def EV_ADD : Nat := 1

/-- macOS `EV_ONESHOT` flag value (0x0010). -/
def EV_ONESHOT : Nat := 16

/-- macOS `EVFILT_READ` filter value (-1). -/
def EVFILT_READ : Int := -1

/-- `struct KEvent` from the source.  The `udata` pointer is modelled as a
token id (`Nat`); `ident` is the descriptor, `data` is unused by the
program. -/
structure KEvent where
  ident : Int
  filter : Int
  flags : Nat
  fflags : Nat
  udata : Nat
deriving DecidableEq, Repr

/-- `KEvent::for_read`: a one-shot read-readiness registration
(`EV_ADD | EV_ONESHOT`, `EVFILT_READ`) with null `udata`. -/
def KEvent.for_read (stream : Int) : KEvent :=
  { ident := stream
    filter := EVFILT_READ
    flags := EV_ADD ||| EV_ONESHOT
    fflags := 0
    udata := 0 }

/-- The kevent that `add_op` submits: `KEvent::for_read(op.fd)` with `udata`
set to the raw pointer of the boxed `Op` (here: its token id). -/
def add_op_kevent (op : Op) (tok : Nat) : KEvent :=
  { KEvent.for_read op.fd with udata := tok }

/-! ## The Box heap and `add_op` (`AsyncQueue::add_op`) -/

/-- The heap of live `Box<Op>` allocations: a fresh-id counter and the
association of live token ids (raw pointers) to the `Op`s they own. -/
structure Heap where
  next : Nat
  live : List (Nat × Op)
deriving DecidableEq, Repr

/-- `Box::into_raw(Box::new(op))`: allocate a fresh token owning `op`. -/
def Heap.alloc (h : Heap) (op : Op) : Nat × Heap :=
  (h.next, { next := h.next + 1, live := (h.next, op) :: h.live })

/-- Remove the first binding of `tok` from an allocation list. -/
def removeTok (tok : Nat) : List (Nat × Op) → List (Nat × Op)
  | [] => []
  | (t, o) :: rest => if t = tok then rest else (t, o) :: removeTok tok rest

/-- `drop(Box::from_raw(ptr))`: free the allocation behind `tok`. -/
def Heap.free (h : Heap) (tok : Nat) : Heap :=
  { h with live := removeTok tok h.live }

/-- `Box::from_raw(ptr)`: reclaim ownership of the `Op` behind `tok`,
removing it from the live heap.  `none` when `tok` is not a live
allocation (undefined behaviour in the source, never reached). -/
def lookupRemove (tok : Nat) : List (Nat × Op) → Option (Op × List (Nat × Op))
  | [] => none
  | (t, o) :: rest =>
    if t = tok then some (o, rest)
    else match lookupRemove tok rest with
      | some (o', rest') => some (o', (t, o) :: rest')
      | none => none

/-- State of one `AsyncQueue`: the box heap, the kernel's pending one-shot
registrations (token ids in kernel custody), and the log of every kevent
ever submitted through `add_op`. -/
structure QS where
  heap : Heap
  pending : List Nat
  regLog : List KEvent
deriving DecidableEq, Repr

/-- Outcome of one `add_op` call: the registration was accepted and the
boxed `Op` is now in kernel custody under `tok`, or the kernel rejected it
(`kevent` returned a negative value) and the program panicked. -/
inductive AddOpOutcome
  | registered (tok : Nat)
  | panicked
deriving DecidableEq, Repr

/-- `AsyncQueue::add_op`: box the `Op`, build `KEvent::for_read(op.fd)` with
`udata` pointing at the box, and submit it.  `accepts` models whether the
`kevent` call succeeds; on rejection the box is freed
(`drop(Box::from_raw(ptr))`) and the program panics. -/
def add_op (accepts : Bool) (st : QS) (op : Op) : QS × AddOpOutcome :=
  let (tok, h1) := st.heap.alloc op
  let ev := add_op_kevent op tok
  if accepts then
    ({ heap := h1, pending := tok :: st.pending, regLog := st.regLog ++ [ev] },
      AddOpOutcome.registered tok)
  else
    ({ st with heap := h1.free tok }, AddOpOutcome.panicked)

/-! ## UTF-8 validation (`std::str::from_utf8`) -/

/-- A UTF-8 continuation byte: `0x80 ..= 0xBF`. -/
def utf8Cont (b : Nat) : Bool := 0x80 ≤ b && b ≤ 0xBF

/-- Byte-level UTF-8 validity, as checked by `std::str::from_utf8`. -/
def isValidUtf8 : List Nat → Bool
  | [] => true
  | b :: rest =>
    if b ≤ 0x7F then isValidUtf8 rest
    else if 0xC2 ≤ b && b ≤ 0xDF then
      match rest with
      | b1 :: rest' => utf8Cont b1 && isValidUtf8 rest'
      | [] => false
    else if b = 0xE0 then
      match rest with
      | b1 :: b2 :: rest' =>
        (0xA0 ≤ b1 && b1 ≤ 0xBF) && utf8Cont b2 && isValidUtf8 rest'
      | _ => false
    else if (0xE1 ≤ b && b ≤ 0xEC) || b = 0xEE || b = 0xEF then
      match rest with
      | b1 :: b2 :: rest' => utf8Cont b1 && utf8Cont b2 && isValidUtf8 rest'
      | _ => false
    else if b = 0xED then
      match rest with
      | b1 :: b2 :: rest' =>
        (0x80 ≤ b1 && b1 ≤ 0x9F) && utf8Cont b2 && isValidUtf8 rest'
      | _ => false
    else if b = 0xF0 then
      match rest with
      | b1 :: b2 :: b3 :: rest' =>
        (0x90 ≤ b1 && b1 ≤ 0xBF) && utf8Cont b2 && utf8Cont b3 && isValidUtf8 rest'
      | _ => false
    else if 0xF1 ≤ b && b ≤ 0xF3 then
      match rest with
      | b1 :: b2 :: b3 :: rest' =>
        utf8Cont b1 && utf8Cont b2 && utf8Cont b3 && isValidUtf8 rest'
      | _ => false
    else if b = 0xF4 then
      match rest with
      | b1 :: b2 :: b3 :: rest' =>
        (0x80 ≤ b1 && b1 ≤ 0x8F) && utf8Cont b2 && utf8Cont b3 && isValidUtf8 rest'
      | _ => false
    else false

/-! ## The socket seen by the Read arm -/

/-- What a non-blocking `read` does once the kernel's receive buffer is
drained: the peer has closed (`Ok(0)`), the read would block
(`Err(EWOULDBLOCK)`), or the read fails outright (`Err`, e.g. a peer
reset). -/
inductive ReadTail
  | eof
  | wouldBlock
  | resetErr
deriving DecidableEq, Repr

/-- A non-blocking TCP stream as the Read arm observes it: the bytes the
kernel currently has buffered, and the behaviour of `read` once they are
drained.  A `read` with space for `k` bytes returns the first
`min k avail.length` buffered bytes. -/
structure SockEnv where
  avail : List Nat
  tail : ReadTail
deriving DecidableEq, Repr

/-- The drain loop of the Read arm:

```
let mut buf: [u8; 32] = [0x00; 32];
let mut n = 0;
loop {
  match socket.read(&mut buf[n..]) {
    Ok(read) if read > 0 => n += read,
    Ok(_) => break,
    Err(_) => break
  }
}
```

`buf` is the list of bytes read so far (its length is `n`; the remaining
space of the 32-byte array is `32 - n`).  A read into an empty slice
returns `Ok(0)`; a read with the buffer drained returns `Ok(0)` on `eof`
and `Err(_)` otherwise — all three break the loop.  Returns the filled
prefix `buf[..n]` and the socket state left behind. -/
def readLoop (env : SockEnv) (buf : List Nat) : List Nat × SockEnv :=
  if 32 - buf.length = 0 then (buf, env)
  else
    match henv : env.avail with
    | [] => (buf, env)
    | b :: rest =>
      readLoop ⟨(b :: rest).drop (32 - buf.length), env.tail⟩
        (buf ++ (b :: rest).take (32 - buf.length))
termination_by env.avail.length
decreasing_by
  simp only [henv, List.length_drop, List.length_cons]
  omega

/-! ## `MyHandler::handle` -/

/-- The `unwrap`/`panic!` sites reachable in one dispatch of
`MyHandler::handle`. -/
inductive PanicReason
  | acceptFailed
  | nonblockFailed
  | invalidUtf8
deriving DecidableEq, Repr

/-- The OS behaviour one dispatch of `MyHandler::handle` can observe:
whether `accept()` yields a connection (and its descriptor), whether
`set_nonblocking(true)` succeeds, and the socket state for the Read arm. -/
structure HandlerEnv where
  acceptResult : Option Int
  nonblockOk : Bool
  sock : SockEnv
deriving DecidableEq, Repr

/-- Observable result of one successful dispatch: the handler's returned
next `Op`, the descriptors closed by dropping owned socket objects, the
connections accepted, and the descriptors switched to non-blocking mode. -/
structure HandleOut where
  next : Option Op
  closedFds : List Int
  acceptedFds : List Int
  nonblockSet : List Int
deriving DecidableEq, Repr

/-- `MyHandler::handle`.  An `Except.error` is a panic (`unwrap` on an
`Err`), which aborts the process.

* Listen arm: `TcpListener::from_raw_fd(op.fd)` takes ownership of the
  listening descriptor; `accept().unwrap()` yields exactly one connection
  (or panics); `set_nonblocking(true).unwrap()`; the new socket's ownership
  is released by `into_raw_fd` and a `Read` op for it is returned.  The
  listener is dropped at the end of the arm, closing `op.fd`.
* Read arm: drain into the 32-byte buffer via `readLoop`, then
  `from_utf8(&buf[..n]).unwrap()` (panics on invalid UTF-8); the stream is
  dropped at the end of the arm, closing `op.fd`; returns `None`.
* Write arm (`_`): returns `None` without touching the descriptor. -/
def MyHandler.handle (env : HandlerEnv) (op : Op) : Except PanicReason HandleOut :=
  match op.state with
  | .listen =>
    match env.acceptResult with
    | none => .error .acceptFailed
    | some newFd =>
      if env.nonblockOk then
        .ok { next := some { fd := newFd, state := .read }
              closedFds := [op.fd]
              acceptedFds := [newFd]
              nonblockSet := [newFd] }
      else .error .nonblockFailed
  | .read =>
    let drained := readLoop env.sock []
    if isValidUtf8 drained.1 then
      .ok { next := none, closedFds := [op.fd], acceptedFds := [], nonblockSet := [] }
    else .error .invalidUtf8
  | .write => .ok { next := none, closedFds := [], acceptedFds := [], nonblockSet := [] }

/-! ## The reactor dispatch machine (`AsyncQueue::each_event` / `run`)

A run of `each_event` is driven by the sequence of readiness firings the
kernel delivers (flattening the batches of up to 16 events per `kevent`
poll; within a batch the events are processed sequentially, so the
flattened sequence is faithful).  The loop ends when the poll returns
`n <= 0`, i.e. when the firing sequence is exhausted. -/

/-- Reactor state observed across a run: the queue state plus the
observable history — the number of handler invocations, the invocation log
(token fired, `Op` reclaimed from it), connections accepted, and
descriptors closed by dispatches. -/
structure RState where
  qs : QS
  ncalls : Nat
  log : List (Nat × Op)
  accepted : List Int
  closed : List Int
deriving DecidableEq, Repr

/-- The empty `AsyncQueue` as built by `AsyncQueue::new` (no live boxes, no
pending registrations). -/
def initQS : QS := { heap := { next := 0, live := [] }, pending := [], regLog := [] }

/-- Freshly created reactor: empty queue, no history. -/
def initState : RState :=
  { qs := initQS, ncalls := 0, log := [], accepted := [], closed := [] }

/-- One `add_op` call with the kernel accepting the registration. -/
def RState.addOp (st : RState) (op : Op) : RState :=
  { st with qs := (add_op true st.qs op).1 }

/-- The registrations performed before `run` (`listen_async` /
`read_async`), each an `add_op` call. -/
def registerOps (st : RState) (ops : List Op) : RState :=
  ops.foldl RState.addOp st

/-- Result of dispatching one fired event: the next state, a panic
(aborting the process in the state reached mid-dispatch), or a stuck
configuration (the kernel fired a token that is not a pending live
registration — undefined behaviour in the source, never reached). -/
inductive StepRes
  | ok (st : RState)
  | panic (st : RState)
  | stuck
deriving DecidableEq, Repr

/-- The state reached mid-dispatch, after the kernel delivered the one-shot
token `tok` (auto-deregistering it) and the `Op` was reclaimed with
`Box::from_raw` (`live'` is the heap with the allocation removed), just as
the handler is invoked. -/
def dispatchSt (st : RState) (tok : Nat) (op : Op) (live' : List (Nat × Op)) :
    RState :=
  { st with
    qs := { st.qs with
            heap := { st.qs.heap with live := live' }
            pending := st.qs.pending.erase tok }
    ncalls := st.ncalls + 1
    log := st.log ++ [(tok, op)] }

/-- Apply a successful dispatch's observable output: record accepts and
closes, and re-register the handler's `Some(next)` via `add_op`. -/
def applyOut (st : RState) (out : HandleOut) : RState :=
  let st2 := { st with
               accepted := st.accepted ++ out.acceptedFds
               closed := st.closed ++ out.closedFds }
  match out.next with
  | some nxt => st2.addOp nxt
  | none => st2

/-- Dispatch of one fired event `e` in the body of `each_event`:
the kernel delivers a pending one-shot token (auto-deregistered on
delivery), the `Op` is reclaimed with `Box::from_raw(e.udata)`, the handler
is invoked, and its `Some(next)` is re-registered via `add_op`. -/
def stepFire (h : Nat → Op → Except PanicReason HandleOut) (st : RState)
    (tok : Nat) : StepRes :=
  if tok ∈ st.qs.pending then
    match lookupRemove tok st.qs.heap.live with
    | some (op, live') =>
      match h st.ncalls op with
      | .ok out => .ok (applyOut (dispatchSt st tok op live') out)
      | .error _ => .panic (dispatchSt st tok op live')
    | none => .stuck
  else .stuck

/-- `AsyncQueue::each_event` over a firing sequence: returns the final
state and whether the loop completed (`true`) or the process panicked
mid-dispatch (`false`); `none` only for ill-formed firing sequences. -/
def each_event (h : Nat → Op → Except PanicReason HandleOut) (st : RState) :
    List Nat → Option (RState × Bool)
  | [] => some (st, true)
  | tok :: rest =>
    match stepFire h st tok with
    | .ok st' => each_event h st' rest
    | .panic st' => some (st', false)
    | .stuck => none

/-- `MyHandler` lifted to the dispatch machine: invocation `i` observes the
OS behaviour `envs i`. -/
def MyHandler.run (envs : Nat → HandlerEnv) :
    Nat → Op → Except PanicReason HandleOut :=
  fun i op => MyHandler.handle (envs i) op

/-- Number of live boxed operations in `Listen` state. -/
def countListen (l : List (Nat × Op)) : Nat :=
  l.countP (fun p => decide (p.2.state = OpState.listen))

/-! ## `fn main` -/

/-- Close events of a whole process run of `fn main`. -/
structure MainOut where
  closes : List Int
  exitedNormally : Bool
deriving DecidableEq, Repr

/-- `fn main`: bind the listener (descriptor `lfd`), create the
`AsyncQueue` (`kq` is the `kqueue()` result: `some qfd`, or `none` meaning
`AsyncQueue::new()` returns `None` and `.unwrap()` panics before any queue
exists), register the initial `Listen` op via `listen_async`, and run the
event loop.  Whether the loop completes or a dispatch panics, the
`AsyncQueue` — and with it the `QueueHandle` — is dropped exactly once
(normal scope exit, or unwinding), emitting one `close(qfd)`.
`closes` lists the descriptors closed by dispatches followed by the
queue's own close; descriptors closed while unwinding a panicking arm are
not tracked (the process is aborting). -/
def mainRun (kq : Option Int) (lfd : Int)
    (h : Nat → Op → Except PanicReason HandleOut) (tr : List Nat) :
    Option MainOut :=
  match kq with
  | none => some { closes := [], exitedNormally := false }
  | some qfd =>
    let st0 := registerOps initState [{ fd := lfd, state := OpState.listen }]
    match each_event h st0 tr with
    | some (st', completed) =>
      some { closes := st'.closed ++ [qfd], exitedNormally := completed }
    | none => none

/-! ## Basic lemmas about the Box heap -/

theorem lookupRemove_map_fst {tok : Nat} {l : List (Nat × Op)} {op : Op}
    {l' : List (Nat × Op)} (h : lookupRemove tok l = some (op, l')) :
    l'.map Prod.fst = (l.map Prod.fst).erase tok := by
  induction l generalizing l' with
  | nil => simp [lookupRemove] at h
  | cons hd rest ih =>
    obtain ⟨t, o⟩ := hd
    rw [lookupRemove] at h
    by_cases ht : t = tok
    · subst ht
      simp only [if_pos rfl, Option.some.injEq, Prod.mk.injEq] at h
      obtain ⟨rfl, rfl⟩ := h
      simp [List.erase_cons_head]
    · rw [if_neg ht] at h
      cases hlr : lookupRemove tok rest with
      | none => rw [hlr] at h; exact absurd h (by simp)
      | some pr =>
        obtain ⟨o', rest'⟩ := pr
        rw [hlr] at h
        simp only [Option.some.injEq, Prod.mk.injEq] at h
        obtain ⟨rfl, rfl⟩ := h
        simp only [List.map_cons, ih hlr]
        rw [List.erase_cons_tail]
        simp [ht]

theorem lookupRemove_countP (p : Nat × Op → Bool) {tok : Nat}
    {l : List (Nat × Op)} {op : Op} {l' : List (Nat × Op)}
    (h : lookupRemove tok l = some (op, l')) :
    l.countP p = l'.countP p + (if p (tok, op) then 1 else 0) := by
  induction l generalizing l' with
  | nil => simp [lookupRemove] at h
  | cons hd rest ih =>
    obtain ⟨t, o⟩ := hd
    rw [lookupRemove] at h
    by_cases ht : t = tok
    · subst ht
      simp only [if_pos rfl, Option.some.injEq, Prod.mk.injEq] at h
      obtain ⟨rfl, rfl⟩ := h
      simp [List.countP_cons]
    · rw [if_neg ht] at h
      cases hlr : lookupRemove tok rest with
      | none => rw [hlr] at h; exact absurd h (by simp)
      | some pr =>
        obtain ⟨o', rest'⟩ := pr
        rw [hlr] at h
        simp only [Option.some.injEq, Prod.mk.injEq] at h
        obtain ⟨rfl, rfl⟩ := h
        simp only [List.countP_cons, ih hlr]
        omega

/-! ## Projection lemmas for the dispatch machine -/

@[simp] theorem addOp_qs_pending (st : RState) (op : Op) :
    (st.addOp op).qs.pending = st.qs.heap.next :: st.qs.pending := rfl

@[simp] theorem addOp_qs_live (st : RState) (op : Op) :
    (st.addOp op).qs.heap.live = (st.qs.heap.next, op) :: st.qs.heap.live := rfl

@[simp] theorem addOp_qs_next (st : RState) (op : Op) :
    (st.addOp op).qs.heap.next = st.qs.heap.next + 1 := rfl

@[simp] theorem addOp_qs_regLog (st : RState) (op : Op) :
    (st.addOp op).qs.regLog =
      st.qs.regLog ++ [add_op_kevent op st.qs.heap.next] := rfl

@[simp] theorem addOp_ncalls (st : RState) (op : Op) :
    (st.addOp op).ncalls = st.ncalls := rfl

@[simp] theorem addOp_log (st : RState) (op : Op) :
    (st.addOp op).log = st.log := rfl

@[simp] theorem addOp_accepted (st : RState) (op : Op) :
    (st.addOp op).accepted = st.accepted := rfl

@[simp] theorem addOp_closed (st : RState) (op : Op) :
    (st.addOp op).closed = st.closed := rfl

@[simp] theorem dispatchSt_ncalls (st : RState) (tok : Nat) (op : Op)
    (live' : List (Nat × Op)) :
    (dispatchSt st tok op live').ncalls = st.ncalls + 1 := rfl

@[simp] theorem dispatchSt_log (st : RState) (tok : Nat) (op : Op)
    (live' : List (Nat × Op)) :
    (dispatchSt st tok op live').log = st.log ++ [(tok, op)] := rfl

@[simp] theorem dispatchSt_pending (st : RState) (tok : Nat) (op : Op)
    (live' : List (Nat × Op)) :
    (dispatchSt st tok op live').qs.pending = st.qs.pending.erase tok := rfl

@[simp] theorem dispatchSt_live (st : RState) (tok : Nat) (op : Op)
    (live' : List (Nat × Op)) :
    (dispatchSt st tok op live').qs.heap.live = live' := rfl

@[simp] theorem dispatchSt_next (st : RState) (tok : Nat) (op : Op)
    (live' : List (Nat × Op)) :
    (dispatchSt st tok op live').qs.heap.next = st.qs.heap.next := rfl

@[simp] theorem dispatchSt_accepted (st : RState) (tok : Nat) (op : Op)
    (live' : List (Nat × Op)) :
    (dispatchSt st tok op live').accepted = st.accepted := rfl

@[simp] theorem dispatchSt_closed (st : RState) (tok : Nat) (op : Op)
    (live' : List (Nat × Op)) :
    (dispatchSt st tok op live').closed = st.closed := rfl

@[simp] theorem applyOut_ncalls (st : RState) (out : HandleOut) :
    (applyOut st out).ncalls = st.ncalls := by
  unfold applyOut; cases out.next <;> rfl

@[simp] theorem applyOut_log (st : RState) (out : HandleOut) :
    (applyOut st out).log = st.log := by
  unfold applyOut; cases out.next <;> rfl

@[simp] theorem applyOut_accepted (st : RState) (out : HandleOut) :
    (applyOut st out).accepted = st.accepted ++ out.acceptedFds := by
  unfold applyOut; cases out.next <;> rfl

@[simp] theorem applyOut_closed (st : RState) (out : HandleOut) :
    (applyOut st out).closed = st.closed ++ out.closedFds := by
  unfold applyOut; cases out.next <;> rfl

/-! ## The token-lifecycle invariant -/

/-- The reactor invariant tying tokens to operations:

* the live boxed allocations correspond exactly, in order, to the kernel's
  pending one-shot tokens (a live token owns exactly one live `Op`, and no
  `Op` is live without its token being pending);
* pending tokens are distinct, resolved (logged) tokens are distinct, and
  no resolved token is still pending (one-shot: a token never fires twice);
* all issued tokens are below the allocation counter;
* the log length equals the number of handler invocations, and every
  allocated token is either still pending or has been resolved exactly
  once (`pending.length + ncalls = heap.next`). -/
def Inv (st : RState) : Prop :=
  st.qs.heap.live.map Prod.fst = st.qs.pending ∧
  st.qs.pending.Nodup ∧
  (st.log.map Prod.fst).Nodup ∧
  (∀ t ∈ st.qs.pending, t < st.qs.heap.next) ∧
  (∀ t ∈ st.log.map Prod.fst, t < st.qs.heap.next) ∧
  (∀ t ∈ st.log.map Prod.fst, t ∉ st.qs.pending) ∧
  st.log.length = st.ncalls ∧
  st.qs.pending.length + st.ncalls = st.qs.heap.next

instance (st : RState) : Decidable (Inv st) := by
  unfold Inv
  infer_instance

theorem Inv_initState : Inv initState := by
  refine ⟨rfl, ?_, ?_, ?_, ?_, ?_, rfl, rfl⟩ <;> simp [initState, initQS]

theorem Inv.addOp {st : RState} (h : Inv st) (op : Op) : Inv (st.addOp op) := by
  obtain ⟨h1, h2, h3, h4, h5, h6, h7, h8⟩ := h
  refine ⟨?_, ?_, ?_, ?_, ?_, ?_, ?_, ?_⟩
  · simp [h1]
  · simp only [addOp_qs_pending, List.nodup_cons]
    exact ⟨fun hmem => absurd (h4 _ hmem) (lt_irrefl _), h2⟩
  · simpa using h3
  · simp only [addOp_qs_pending, addOp_qs_next, List.mem_cons]
    rintro t (rfl | hmem)
    · omega
    · exact Nat.lt_succ_of_lt (h4 _ hmem)
  · simp only [addOp_log, addOp_qs_next]
    exact fun t hmem => Nat.lt_succ_of_lt (h5 _ hmem)
  · simp only [addOp_log, addOp_qs_pending, List.mem_cons]
    rintro t hmem (rfl | hp)
    · exact absurd (h5 _ hmem) (lt_irrefl _)
    · exact h6 _ hmem hp
  · simpa using h7
  · simp only [addOp_qs_pending, addOp_qs_next, List.length_cons, addOp_ncalls]
    omega

theorem Inv.dispatchSt {st : RState} {tok : Nat} {op : Op}
    {live' : List (Nat × Op)} (h : Inv st) (htok : tok ∈ st.qs.pending)
    (hlr : lookupRemove tok st.qs.heap.live = some (op, live')) :
    Inv (dispatchSt st tok op live') := by
  obtain ⟨h1, h2, h3, h4, h5, h6, h7, h8⟩ := h
  have htoklog : tok ∉ st.log.map Prod.fst := fun hc => h6 _ hc htok
  refine ⟨?_, ?_, ?_, ?_, ?_, ?_, ?_, ?_⟩
  · rw [dispatchSt_live, dispatchSt_pending, lookupRemove_map_fst hlr, h1]
  · exact h2.erase tok
  · simp only [dispatchSt_log, List.map_append, List.map_cons, List.map_nil]
    simp [List.nodup_append, h3, htoklog]
  · simp only [dispatchSt_pending, dispatchSt_next]
    exact fun t hmem => h4 _ (List.mem_of_mem_erase hmem)
  · simp only [dispatchSt_log, dispatchSt_next, List.map_append, List.map_cons,
      List.map_nil, List.mem_append, List.mem_cons, List.not_mem_nil, or_false]
    rintro t (hmem | rfl)
    · exact h5 _ hmem
    · exact h4 _ htok
  · simp only [dispatchSt_log, dispatchSt_pending, List.map_append, List.map_cons,
      List.map_nil, List.mem_append, List.mem_cons, List.not_mem_nil, or_false]
    rintro t (hmem | rfl) hp
    · exact h6 _ hmem (List.mem_of_mem_erase hp)
    · exact absurd ((h2.mem_erase_iff).mp hp).1 (by simp)
  · simp only [dispatchSt_log, dispatchSt_ncalls, List.length_append,
      List.length_cons, List.length_nil]
    omega
  · have hlen : (st.qs.pending.erase tok).length = st.qs.pending.length - 1 :=
      List.length_erase_of_mem htok
    have hpos : 0 < st.qs.pending.length := List.length_pos.mpr (by
      intro hnil; rw [hnil] at htok; exact List.not_mem_nil _ htok)
    simp only [dispatchSt_pending, dispatchSt_ncalls, dispatchSt_next, hlen]
    omega

theorem invApplyOut {st : RState} (h : Inv st) (out : HandleOut) :
    Inv (applyOut st out) := by
  unfold applyOut
  cases out.next with
  | some nxt => exact Inv.addOp h nxt
  | none => exact h

/-! ## Characterisation of one dispatch step -/

theorem stepFire_ok_elim {h : Nat → Op → Except PanicReason HandleOut}
    {st : RState} {tok : Nat} {st' : RState}
    (hs : stepFire h st tok = StepRes.ok st') :
    ∃ op live' out,
      tok ∈ st.qs.pending ∧
      lookupRemove tok st.qs.heap.live = some (op, live') ∧
      h st.ncalls op = Except.ok out ∧
      st' = applyOut (dispatchSt st tok op live') out := by
  unfold stepFire at hs
  split at hs
  next htok =>
    split at hs
    next op live' hlr =>
      split at hs
      next out hh =>
        simp only [StepRes.ok.injEq] at hs
        exact ⟨op, live', out, htok, hlr, hh, hs.symm⟩
      next e hh => exact absurd hs (by simp)
    next hlr => exact absurd hs (by simp)
  next htok => exact absurd hs (by simp)

theorem stepFire_panic_elim {h : Nat → Op → Except PanicReason HandleOut}
    {st : RState} {tok : Nat} {st' : RState}
    (hs : stepFire h st tok = StepRes.panic st') :
    ∃ op live' e,
      tok ∈ st.qs.pending ∧
      lookupRemove tok st.qs.heap.live = some (op, live') ∧
      h st.ncalls op = Except.error e ∧
      st' = dispatchSt st tok op live' := by
  unfold stepFire at hs
  split at hs
  next htok =>
    split at hs
    next op live' hlr =>
      split at hs
      next out hh => exact absurd hs (by simp)
      next e hh =>
        simp only [StepRes.panic.injEq] at hs
        exact ⟨op, live', e, htok, hlr, hh, hs.symm⟩
    next hlr => exact absurd hs (by simp)
  next htok => exact absurd hs (by simp)

theorem Inv.stepFire_ok {h : Nat → Op → Except PanicReason HandleOut}
    {st : RState} {tok : Nat} {st' : RState} (hI : Inv st)
    (hs : stepFire h st tok = StepRes.ok st') : Inv st' := by
  obtain ⟨op, live', out, htok, hlr, _, rfl⟩ := stepFire_ok_elim hs
  exact invApplyOut (hI.dispatchSt htok hlr) out

theorem Inv.stepFire_panic {h : Nat → Op → Except PanicReason HandleOut}
    {st : RState} {tok : Nat} {st' : RState} (hI : Inv st)
    (hs : stepFire h st tok = StepRes.panic st') : Inv st' := by
  obtain ⟨op, live', e, htok, hlr, _, rfl⟩ := stepFire_panic_elim hs
  exact hI.dispatchSt htok hlr

theorem invEachEvent {h : Nat → Op → Except PanicReason HandleOut}
    {st : RState} {tr : List Nat} {st' : RState} {b : Bool} (hI : Inv st)
    (hr : each_event h st tr = some (st', b)) : Inv st' := by
  induction tr generalizing st with
  | nil =>
    simp only [each_event, Option.some.injEq, Prod.mk.injEq] at hr
    rw [← hr.1]; exact hI
  | cons tok rest ih =>
    rw [each_event] at hr
    cases hsf : stepFire h st tok with
    | ok stNext => rw [hsf] at hr; exact ih (hI.stepFire_ok hsf) hr
    | panic stNext =>
      rw [hsf] at hr
      simp only [Option.some.injEq, Prod.mk.injEq] at hr
      rw [← hr.1]; exact hI.stepFire_panic hsf
    | stuck => rw [hsf] at hr; exact absurd hr (by simp)

/-! ## Counting handler invocations -/

theorem stepFire_ok_ncalls {h : Nat → Op → Except PanicReason HandleOut}
    {st : RState} {tok : Nat} {st' : RState}
    (hs : stepFire h st tok = StepRes.ok st') : st'.ncalls = st.ncalls + 1 := by
  obtain ⟨op, live', out, _, _, _, rfl⟩ := stepFire_ok_elim hs
  simp

theorem each_event_ncalls {h : Nat → Op → Except PanicReason HandleOut}
    {st : RState} {tr : List Nat} {st' : RState}
    (hr : each_event h st tr = some (st', true)) :
    st'.ncalls = st.ncalls + tr.length := by
  induction tr generalizing st with
  | nil =>
    simp only [each_event, Option.some.injEq, Prod.mk.injEq] at hr
    rw [← hr.1]; simp
  | cons tok rest ih =>
    rw [each_event] at hr
    cases hsf : stepFire h st tok with
    | ok stNext =>
      rw [hsf] at hr
      rw [ih hr, stepFire_ok_ncalls hsf, List.length_cons]
      omega
    | panic stNext =>
      rw [hsf] at hr
      simp only [Option.some.injEq, Prod.mk.injEq] at hr
      exact absurd hr.2 (by simp)
    | stuck => rw [hsf] at hr; exact absurd hr (by simp)

theorem Inv.registerOps {st : RState} (h : Inv st) (ops : List Op) :
    Inv (registerOps st ops) := by
  induction ops generalizing st with
  | nil => exact h
  | cons op rest ih => exact ih (h.addOp op)

@[simp] theorem registerOps_ncalls (st : RState) (ops : List Op) :
    (registerOps st ops).ncalls = st.ncalls := by
  induction ops generalizing st with
  | nil => rfl
  | cons op rest ih => simpa [registerOps] using ih (st.addOp op)

/-! ## Characterisation of the drain loop -/

/-- The drain loop reads exactly the first `32 - buf.length` buffered bytes
and leaves the rest in the kernel buffer, whatever the tail behaviour of
the stream is.  In particular the loop always yields (it is a total
function and this closed form is reached after finitely many reads). -/
theorem readLoop_eq (env : SockEnv) (buf : List Nat) :
    readLoop env buf =
      (buf ++ env.avail.take (32 - buf.length),
        ⟨env.avail.drop (32 - buf.length), env.tail⟩) := by
  induction env, buf using readLoop.induct with
  | case1 env buf hfull =>
    rw [readLoop, if_pos hfull, hfull]
    simp
  | case2 env buf hfull henv =>
    obtain ⟨av, tl⟩ := env
    dsimp only at henv
    subst henv
    rw [readLoop, if_neg hfull]
    dsimp only
    simp
  | case3 env buf hfull b rest henv ih =>
    obtain ⟨av, tl⟩ := env
    dsimp only at henv
    subst henv
    rw [readLoop, if_neg hfull]
    dsimp only
    rw [ih]
    dsimp only
    by_cases hlen : (b :: rest).length ≤ 32 - buf.length
    · have hdrop : (b :: rest).drop (32 - buf.length) = [] := by
        rw [List.drop_eq_nil_iff]
        exact hlen
      have htake : (b :: rest).take (32 - buf.length) = b :: rest :=
        List.take_of_length_le hlen
      simp [hdrop, htake]
    · have htlen : ((b :: rest).take (32 - buf.length)).length =
          32 - buf.length := by
        rw [List.length_take]
        omega
      have hfull2 : 32 - (buf ++ (b :: rest).take (32 - buf.length)).length = 0 := by
        rw [List.length_append, htlen]
        omega
      rw [hfull2]
      simp

/-! ## The handler never re-arms a Listen operation -/

/-- A handler is listen-conservative when a successful dispatch accepts at
most one connection — and none unless the fired operation was a `Listen`
one — and never asks a `Listen` operation to be (re-)registered. -/
def ListenConservative (h : Nat → Op → Except PanicReason HandleOut) : Prop :=
  ∀ i op out, h i op = Except.ok out →
    out.acceptedFds.length ≤ (if op.state = OpState.listen then 1 else 0) ∧
    ∀ nxt, out.next = some nxt → nxt.state ≠ OpState.listen

theorem myHandler_listenConservative (envs : Nat → HandlerEnv) :
    ListenConservative (MyHandler.run envs) := by
  intro i op out hok
  cases hst : op.state with
  | listen =>
    cases hacc : (envs i).acceptResult with
    | none => simp [MyHandler.run, MyHandler.handle, hst, hacc] at hok
    | some newFd =>
      by_cases hnb : (envs i).nonblockOk
      · simp only [MyHandler.run, MyHandler.handle, hst, hacc, hnb, if_true,
          Except.ok.injEq] at hok
        subst hok
        refine ⟨by simp [hst], ?_⟩
        rintro nxt hn
        simp only [Option.some.injEq] at hn
        subst hn
        simp
      · simp [MyHandler.run, MyHandler.handle, hst, hacc, hnb] at hok
  | read =>
    by_cases hv : isValidUtf8 (readLoop (envs i).sock []).1 = true
    · simp only [MyHandler.run, MyHandler.handle, hst, hv, if_true,
        Except.ok.injEq] at hok
      subst hok
      exact ⟨by simp [hst], by rintro nxt ⟨⟩⟩
    · simp [MyHandler.run, MyHandler.handle, hst, hv] at hok
  | write =>
    simp only [MyHandler.run, MyHandler.handle, hst, Except.ok.injEq] at hok
    subst hok
    exact ⟨by simp [hst], by rintro nxt ⟨⟩⟩

/-- At most one connection is ever accepted across a whole run: the count
of accepted connections plus the number of live `Listen` registrations
never exceeds its initial bound of one. -/
def AcceptBound (st : RState) : Prop :=
  st.accepted.length + countListen st.qs.heap.live ≤ 1

theorem acceptBound_applyOut {st : RState} {out : HandleOut}
    (hnl : ∀ nxt, out.next = some nxt → nxt.state ≠ OpState.listen)
    (hb : st.accepted.length + out.acceptedFds.length +
      countListen st.qs.heap.live ≤ 1) :
    AcceptBound (applyOut st out) := by
  unfold AcceptBound
  cases hnext : out.next with
  | none =>
    unfold applyOut
    rw [hnext]
    simpa using hb
  | some nxt =>
    have hstate : decide (nxt.state = OpState.listen) = false := by
      simpa using hnl nxt hnext
    unfold applyOut
    rw [hnext]
    simp only [addOp_accepted, addOp_qs_live, List.length_append, countListen,
      List.countP_cons, hstate]
    simp only [countListen] at hb
    simp only [Bool.false_eq_true, if_false]
    omega

theorem acceptBound_stepFire_ok {h : Nat → Op → Except PanicReason HandleOut}
    {st : RState} {tok : Nat} {st' : RState} (hc : ListenConservative h)
    (hb : AcceptBound st) (hs : stepFire h st tok = StepRes.ok st') :
    AcceptBound st' := by
  obtain ⟨op, live', out, htok, hlr, hok, rfl⟩ := stepFire_ok_elim hs
  obtain ⟨hlen, hnl⟩ := hc _ _ _ hok
  have hcount := lookupRemove_countP
    (fun p => decide (p.2.state = OpState.listen)) hlr
  unfold AcceptBound countListen at hb
  apply acceptBound_applyOut hnl
  simp only [dispatchSt_accepted, dispatchSt_live, countListen]
  by_cases hst : op.state = OpState.listen
  · have h1 : out.acceptedFds.length ≤ 1 := by simpa [hst] using hlen
    have h2 : List.countP (fun p => decide (p.2.state = OpState.listen))
          st.qs.heap.live =
        List.countP (fun p => decide (p.2.state = OpState.listen)) live' + 1 := by
      simpa [hst] using hcount
    omega
  · have h1 : out.acceptedFds.length ≤ 0 := by simpa [hst] using hlen
    have h2 : List.countP (fun p => decide (p.2.state = OpState.listen))
          st.qs.heap.live =
        List.countP (fun p => decide (p.2.state = OpState.listen)) live' := by
      simpa [hst] using hcount
    omega

theorem acceptBound_stepFire_panic {h : Nat → Op → Except PanicReason HandleOut}
    {st : RState} {tok : Nat} {st' : RState}
    (hb : AcceptBound st) (hs : stepFire h st tok = StepRes.panic st') :
    AcceptBound st' := by
  obtain ⟨op, live', e, htok, hlr, _, rfl⟩ := stepFire_panic_elim hs
  have hcount := lookupRemove_countP
    (fun p => decide (p.2.state = OpState.listen)) hlr
  unfold AcceptBound countListen at hb ⊢
  simp only [dispatchSt_accepted, dispatchSt_live]
  split at hcount <;> omega

theorem acceptBound_run {h : Nat → Op → Except PanicReason HandleOut}
    {st : RState} {tr : List Nat} {st' : RState} {b : Bool}
    (hc : ListenConservative h) (hb : AcceptBound st)
    (hr : each_event h st tr = some (st', b)) : AcceptBound st' := by
  induction tr generalizing st with
  | nil =>
    simp only [each_event, Option.some.injEq, Prod.mk.injEq] at hr
    rw [← hr.1]; exact hb
  | cons tok rest ih =>
    rw [each_event] at hr
    cases hsf : stepFire h st tok with
    | ok stNext =>
      rw [hsf] at hr
      exact ih (acceptBound_stepFire_ok hc hb hsf) hr
    | panic stNext =>
      rw [hsf] at hr
      simp only [Option.some.injEq, Prod.mk.injEq] at hr
      rw [← hr.1]
      exact acceptBound_stepFire_panic hb hsf
    | stuck => rw [hsf] at hr; exact absurd hr (by simp)

/-! ## Concrete fixtures used by the claim witnesses -/

/-- A handler that finishes every operation. -/
def finishHandler : Nat → Op → Except PanicReason HandleOut :=
  fun _ _ =>
    Except.ok { next := none, closedFds := [], acceptedFds := [], nonblockSet := [] }

/-- A drained socket whose next read would block. -/
def sockIdle : SockEnv := { avail := [], tail := ReadTail.wouldBlock }

/-- OS behaviour where `accept` yields descriptor 5 and `set_nonblocking`
succeeds. -/
def envAccept : HandlerEnv :=
  { acceptResult := some 5, nonblockOk := true, sock := sockIdle }

/-- OS behaviour where `accept` fails. -/
def envAcceptFail : HandlerEnv :=
  { acceptResult := none, nonblockOk := true, sock := sockIdle }

/-- OS behaviour where the peer sent the bytes of `b"hello"` and closed. -/
def helloEnv : HandlerEnv :=
  { acceptResult := none, nonblockOk := true,
    sock := { avail := [104, 101, 108, 108, 111], tail := ReadTail.eof } }

/-- OS behaviour where the peer has sent 64 bytes of `'a'`. -/
def env64 : HandlerEnv :=
  { acceptResult := none, nonblockOk := true,
    sock := { avail := List.replicate 64 97, tail := ReadTail.wouldBlock } }

/-- The state after registering one Listen op (fd 4) and firing it under
`finishHandler`. -/
def c1WitSt : RState :=
  { qs := { heap := { next := 1, live := [] }
            pending := []
            regLog := [{ ident := 4, filter := -1, flags := 17, fflags := 0,
                         udata := 0 }] }
    ncalls := 1
    log := [(0, { fd := 4, state := OpState.listen })]
    accepted := []
    closed := [] }

/-- The state after registering one Listen op (fd 4) and firing it under
`MyHandler` with `envAccept`: one connection (fd 5) accepted and its Read
op registered. -/
def c5WitSt : RState :=
  { qs := { heap := { next := 2, live := [(1, { fd := 5, state := OpState.read })] }
            pending := [1]
            regLog := [{ ident := 4, filter := -1, flags := 17, fflags := 0,
                         udata := 0 },
                       { ident := 5, filter := -1, flags := 17, fflags := 0,
                         udata := 1 }] }
    ncalls := 1
    log := [(0, { fd := 4, state := OpState.listen })]
    accepted := [5]
    closed := [4] }

/-! ## Claim C1 -/

/-- **C1.** For every run of the reactor over a sequence of operations
registered via `add_op` and the readiness firings delivered by the poll
loop, the handler is invoked exactly once per firing (`N` firings → `N`
invocations), each invocation reclaims its `Op` from a distinct token (no
token is resolved twice), the live heap corresponds exactly to the pending
tokens at every run boundary (no `Op` is dropped silently while its token
is pending), and if the firings consumed every registration ever made the
heap is left empty (every `Op` reclaimed exactly once). -/
theorem c1_token_round_trip (h : Nat → Op → Except PanicReason HandleOut)
    (ops : List Op) (tr : List Nat) (st' : RState)
    (hrun : each_event h (registerOps initState ops) tr = some (st', true)) :
    st'.ncalls = tr.length ∧
    st'.log.length = tr.length ∧
    (st'.log.map Prod.fst).Nodup ∧
    st'.qs.heap.live.map Prod.fst = st'.qs.pending ∧
    (st'.qs.heap.next = tr.length → st'.qs.heap.live = []) := by
  have hI0 : Inv (registerOps initState ops) := Inv_initState.registerOps ops
  have hI' : Inv st' := invEachEvent hI0 hrun
  have hnc : st'.ncalls = tr.length := by
    have hc := each_event_ncalls hrun
    rw [registerOps_ncalls] at hc
    simpa [initState] using hc
  obtain ⟨i1, i2, i3, i4, i5, i6, i7, i8⟩ := hI'
  refine ⟨hnc, by rw [i7, hnc], i3, i1, ?_⟩
  intro hn
  have hpend : st'.qs.pending.length = 0 := by omega
  have hnil : st'.qs.pending = [] := List.length_eq_zero.mp hpend
  rw [hnil] at i1
  exact List.map_eq_nil_iff.mp i1

/-- Witness for C1: one Listen registration, one firing. -/
theorem c1_token_round_trip_witness :
    c1WitSt.ncalls = [0].length ∧
    c1WitSt.log.length = [0].length ∧
    (c1WitSt.log.map Prod.fst).Nodup ∧
    c1WitSt.qs.heap.live.map Prod.fst = c1WitSt.qs.pending ∧
    (c1WitSt.qs.heap.next = [0].length → c1WitSt.qs.heap.live = []) :=
  c1_token_round_trip finishHandler [{ fd := 4, state := OpState.listen }] [0]
    c1WitSt (by decide)

/-! ## Claim C4 -/

/-- **C4.** Every registration performed through `add_op` — they all go
through `KEvent::for_read` — is a one-shot readiness registration: its
flags are exactly `EV_ADD | EV_ONESHOT` (the one-shot bit is set), and
once the token fires it is no longer pending (the kernel auto-deregisters
a one-shot registration on delivery), so the caller must re-register to
keep monitoring the descriptor. -/
theorem c4_one_shot_registration (op : Op) (tok : Nat)
    (h : Nat → Op → Except PanicReason HandleOut) (st st' : RState)
    (hI : Inv st) (hs : stepFire h st tok = StepRes.ok st') :
    (add_op_kevent op tok).flags = EV_ADD ||| EV_ONESHOT ∧
    (add_op_kevent op tok).flags &&& EV_ONESHOT ≠ 0 ∧
    tok ∉ st'.qs.pending := by
  obtain ⟨op', live', out, htok, hlr, hok, rfl⟩ := stepFire_ok_elim hs
  obtain ⟨i1, i2, i3, i4, i5, i6, i7, i8⟩ := hI
  have htlt : tok < st.qs.heap.next := i4 _ htok
  have hne : tok ∉ st.qs.pending.erase tok := fun hc => by
    simpa using (i2.mem_erase_iff.mp hc).1
  refine ⟨rfl, ?_, ?_⟩
  · show (EV_ADD ||| EV_ONESHOT) &&& EV_ONESHOT ≠ 0
    decide
  unfold applyOut
  cases out.next with
  | some nxt =>
    simp only [addOp_qs_pending, dispatchSt_pending, dispatchSt_next,
      List.mem_cons]
    rintro (rfl | hc)
    · exact absurd htlt (lt_irrefl _)
    · exact hne hc
  | none =>
    simp only [dispatchSt_pending]
    exact hne

/-- Witness for C4: the Listen registration of fd 4 under token 0. -/
theorem c4_one_shot_registration_witness :
    (add_op_kevent { fd := 4, state := OpState.listen } 0).flags =
      EV_ADD ||| EV_ONESHOT ∧
    (add_op_kevent { fd := 4, state := OpState.listen } 0).flags &&&
      EV_ONESHOT ≠ 0 ∧
    0 ∉ c1WitSt.qs.pending :=
  c4_one_shot_registration { fd := 4, state := OpState.listen } 0 finishHandler
    (registerOps initState [{ fd := 4, state := OpState.listen }]) c1WitSt
    (by decide) (by decide)

/-! ## Claim C8 -/

/-- **C8.** If the kernel rejects the registration (`kevent` returns a
negative value inside `add_op`), the freshly heap-allocated `Op` is
reclaimed and freed before the call fails — the live heap, the pending
set, and the registration log are left exactly as they were, so no
`Operation` is leaked — and the call panics, which in this minimal design
aborts the whole process. -/
theorem c8_rejected_registration_frees_op (st : QS) (op : Op) :
    (add_op false st op).1.heap.live = st.heap.live ∧
    (add_op false st op).1.pending = st.pending ∧
    (add_op false st op).1.regLog = st.regLog ∧
    (add_op false st op).2 = AddOpOutcome.panicked := by
  refine ⟨?_, rfl, rfl, rfl⟩
  simp [add_op, Heap.alloc, Heap.free, removeTok]

/-! ## Claim C5 -/

/-- **C5.** When a Listening operation fires and `accept` succeeds, the
handler accepts exactly one pending connection from the listening
descriptor, marks the accepted socket non-blocking, and returns `Some` of
a Reading operation for the new connection; and since the Listening
operation is not re-armed after firing, a reactor run started — as `main`
starts it — from a single Listening registration accepts at most one
connection over the lifetime of the process. -/
theorem c5_accept_once (env : HandlerEnv) (fd newFd lfd : Int)
    (envs : Nat → HandlerEnv) (tr : List Nat) (st' : RState) (b : Bool)
    (hacc : env.acceptResult = some newFd) (hnb : env.nonblockOk = true)
    (hrun : each_event (MyHandler.run envs)
      (registerOps initState [{ fd := lfd, state := OpState.listen }]) tr =
        some (st', b)) :
    MyHandler.handle env { fd := fd, state := OpState.listen } =
      Except.ok { next := some { fd := newFd, state := OpState.read }
                  closedFds := [fd]
                  acceptedFds := [newFd]
                  nonblockSet := [newFd] } ∧
    st'.accepted.length ≤ 1 := by
  constructor
  · simp [MyHandler.handle, hacc, hnb]
  · have hb0 : AcceptBound
        (registerOps initState [{ fd := lfd, state := OpState.listen }]) := by
      unfold AcceptBound countListen
      simp [registerOps, RState.addOp, add_op, Heap.alloc, initState, initQS]
    have hb' := acceptBound_run (myHandler_listenConservative envs) hb0 hrun
    unfold AcceptBound at hb'
    omega

/-- Witness for C5: fd 4 listening, connection fd 5 accepted on firing
token 0; the run accepts exactly one connection. -/
theorem c5_accept_once_witness :
    MyHandler.handle envAccept { fd := 4, state := OpState.listen } =
      Except.ok { next := some { fd := 5, state := OpState.read }
                  closedFds := [4]
                  acceptedFds := [5]
                  nonblockSet := [5] } ∧
    c5WitSt.accepted.length ≤ 1 :=
  c5_accept_once envAccept 4 5 4 (fun _ => envAccept) [0] c5WitSt true
    (by decide) (by decide) (by decide)

/-! ## Claim C2 -/

/-- **C2 counterexample.** Registering a Listen op for fd 4 and firing it
with `accept` succeeding (new connection fd 5): after the dispatch the
reactor holds zero Listening registrations, not exactly one — the
listening socket is never re-armed, so a second client is not accepted on
a later poll cycle. -/
theorem c2_counterexample :
    each_event (MyHandler.run fun _ => envAccept)
        (registerOps initState [{ fd := 4, state := OpState.listen }]) [0] =
      some (c5WitSt, true) ∧
    countListen c5WitSt.qs.heap.live = 0 ∧
    ¬ countListen c5WitSt.qs.heap.live = 1 := by decide

/-- **C2 (amended).** After a Listening operation fires and `accept`
succeeds, exactly one new Reading operation is registered — for the newly
accepted descriptor — but no new Listening operation is re-armed for the
original listening socket (whose descriptor the dispatch in fact closes);
consequently a run started from a single Listening registration never
accepts a second connection, no matter how many poll cycles follow. -/
theorem c2_no_listen_rearm (env : HandlerEnv) (fd newFd lfd : Int)
    (out : HandleOut) (envs : Nat → HandlerEnv) (tr : List Nat)
    (st' : RState) (b : Bool)
    (hacc : env.acceptResult = some newFd) (hnb : env.nonblockOk = true)
    (hout : MyHandler.handle env { fd := fd, state := OpState.listen } =
      Except.ok out)
    (hrun : each_event (MyHandler.run envs)
      (registerOps initState [{ fd := lfd, state := OpState.listen }]) tr =
        some (st', b)) :
    out.next = some { fd := newFd, state := OpState.read } ∧
    (∀ nxt, out.next = some nxt → nxt.state ≠ OpState.listen) ∧
    out.closedFds = [fd] ∧
    st'.accepted.length ≤ 1 := by
  have heq : MyHandler.handle env { fd := fd, state := OpState.listen } =
      Except.ok { next := some { fd := newFd, state := OpState.read }
                  closedFds := [fd]
                  acceptedFds := [newFd]
                  nonblockSet := [newFd] } := by
    simp [MyHandler.handle, hacc, hnb]
  rw [heq] at hout
  simp only [Except.ok.injEq] at hout
  subst hout
  refine ⟨rfl, ?_, rfl, ?_⟩
  · rintro nxt hn
    simp only [Option.some.injEq] at hn
    subst hn
    simp
  · have hb0 : AcceptBound
        (registerOps initState [{ fd := lfd, state := OpState.listen }]) := by
      unfold AcceptBound countListen
      simp [registerOps, RState.addOp, add_op, Heap.alloc, initState, initQS]
    have hb' := acceptBound_run (myHandler_listenConservative envs) hb0 hrun
    unfold AcceptBound at hb'
    omega

/-- Witness for the amended C2, on the same concrete run as the
counterexample. -/
theorem c2_no_listen_rearm_witness :
    (some { fd := 5, state := OpState.read } : Option Op) =
      some { fd := 5, state := OpState.read } ∧
    (∀ nxt, (some { fd := 5, state := OpState.read } : Option Op) = some nxt →
      nxt.state ≠ OpState.listen) ∧
    ([4] : List Int) = [4] ∧
    c5WitSt.accepted.length ≤ 1 := by
  have h := c2_no_listen_rearm envAccept 4 5 4
    { next := some { fd := 5, state := OpState.read }
      closedFds := [4], acceptedFds := [5], nonblockSet := [5] }
    (fun _ => envAccept) [0] c5WitSt true
    (by decide) (by decide) rfl (by decide)
  exact h

/-! ## Claim C9 -/

/-- **C9.** The OS queue resource held by the `QueueHandle` is closed
exactly once per handle, at teardown, however teardown is triggered: when
`main`'s event loop ends — normally (`b = true`) or by a panic unwinding
out of a dispatch (`b = false`) — the `AsyncQueue` and its `QueueHandle`
are dropped once, producing exactly one `close(qfd)`; and when queue
creation fails there is no queue to drop, so the resource is never
double-released on any path. -/
theorem c9_queue_closed_once (qfd lfd : Int)
    (h : Nat → Op → Except PanicReason HandleOut) (tr : List Nat)
    (st' : RState) (b : Bool)
    (hrun : each_event h (registerOps initState
      [{ fd := lfd, state := OpState.listen }]) tr = some (st', b))
    (hdisj : qfd ∉ st'.closed) :
    mainRun (some qfd) lfd h tr =
      some { closes := st'.closed ++ [qfd], exitedNormally := b } ∧
    (st'.closed ++ [qfd]).count qfd = 1 ∧
    mainRun none lfd h tr = some { closes := [], exitedNormally := false } := by
  refine ⟨?_, ?_, rfl⟩
  · unfold mainRun
    dsimp only
    rw [hrun]
  · rw [List.count_append, List.count_eq_zero.mpr hdisj]
    simp

/-- Witness for C9: queue fd 3, listener fd 4, one firing, normal exit. -/
theorem c9_queue_closed_once_witness :
    mainRun (some 3) 4 finishHandler [0] =
      some { closes := c1WitSt.closed ++ [3], exitedNormally := true } ∧
    (c1WitSt.closed ++ [3]).count 3 = 1 ∧
    mainRun none 4 finishHandler [0] =
      some { closes := [], exitedNormally := false } :=
  c9_queue_closed_once 3 4 finishHandler [0] c1WitSt true (by decide) (by decide)

/-! ## Claim C3 -/

/-- OS behaviour where the first read on the connection fails outright
(e.g. peer reset): nothing buffered, `read` returns `Err`. -/
def envReadErr : HandlerEnv :=
  { acceptResult := none, nonblockOk := true,
    sock := { avail := [], tail := ReadTail.resetErr } }

/-- OS behaviour where the peer sent one invalid UTF-8 byte. -/
def envBadUtf8 : HandlerEnv :=
  { acceptResult := none, nonblockOk := true,
    sock := { avail := [255], tail := ReadTail.wouldBlock } }

/-- **C3 counterexample.** A per-connection failure does terminate the
process: when `accept` fails on a fired Listening operation the dispatch
panics (`accept().unwrap()`), aborting the reactor — the failure is not
contained to that one operation. -/
theorem c3_counterexample :
    MyHandler.handle envAcceptFail { fd := 4, state := OpState.listen } =
      Except.error PanicReason.acceptFailed := rfl

/-- **C3 (amended).** Resource exhaustion at startup (queue creation
failure) terminates the process before any connection is served, and a
read failure during the drain loop is contained — the loop just stops and
the dispatch completes normally, releasing the connection.  But the other
per-connection failures are not contained: an accept failure on a
Listening operation and a UTF-8 decode failure on received bytes both
panic and abort the whole process, as does a rejected registration inside
`add_op`. -/
theorem c3_failure_containment (lfd fd fdU : Int)
    (h : Nat → Op → Except PanicReason HandleOut) (tr : List Nat)
    (env envR envU : HandlerEnv) (st : QS) (op : Op)
    (hacc : env.acceptResult = none)
    (hv : isValidUtf8 (readLoop envR.sock []).1 = true)
    (hw : isValidUtf8 (readLoop envU.sock []).1 = false) :
    mainRun none lfd h tr = some { closes := [], exitedNormally := false } ∧
    MyHandler.handle envR { fd := fd, state := OpState.read } =
      Except.ok { next := none, closedFds := [fd], acceptedFds := [],
                  nonblockSet := [] } ∧
    MyHandler.handle env { fd := fd, state := OpState.listen } =
      Except.error PanicReason.acceptFailed ∧
    MyHandler.handle envU { fd := fdU, state := OpState.read } =
      Except.error PanicReason.invalidUtf8 ∧
    (add_op false st op).2 = AddOpOutcome.panicked := by
  refine ⟨rfl, ?_, ?_, ?_, rfl⟩
  · simp [MyHandler.handle, hv]
  · simp [MyHandler.handle, hacc]
  · simp [MyHandler.handle, hw]

/-- Witness for the amended C3: read failure (peer reset) contained,
accept failure and a 0xFF byte aborting, a rejected registration
panicking. -/
theorem c3_failure_containment_witness :
    mainRun none 4 finishHandler [] =
      some { closes := [], exitedNormally := false } ∧
    MyHandler.handle envReadErr { fd := 7, state := OpState.read } =
      Except.ok { next := none, closedFds := [7], acceptedFds := [],
                  nonblockSet := [] } ∧
    MyHandler.handle envAcceptFail { fd := 7, state := OpState.listen } =
      Except.error PanicReason.acceptFailed ∧
    MyHandler.handle envBadUtf8 { fd := 8, state := OpState.read } =
      Except.error PanicReason.invalidUtf8 ∧
    (add_op false initQS { fd := 4, state := OpState.listen }).2 =
      AddOpOutcome.panicked :=
  c3_failure_containment 4 7 8 finishHandler [] envAcceptFail envReadErr
    envBadUtf8 initQS { fd := 4, state := OpState.listen } rfl
    (by rw [readLoop_eq]; decide) (by rw [readLoop_eq]; decide)

/-! ## Claim C6 -/

/-- **C6 counterexample.** When the drained bytes are not valid UTF-8
(here the single byte 0xFF), the Reading dispatch does not return `None`
after draining: `from_utf8(..).unwrap()` panics instead, so the flow does
not end with the descriptor released — the whole process aborts. -/
theorem c6_counterexample :
    MyHandler.handle envBadUtf8 { fd := 9, state := OpState.read } =
      Except.error PanicReason.invalidUtf8 ∧
    MyHandler.handle envBadUtf8 { fd := 9, state := OpState.read } ≠
      Except.ok { next := none, closedFds := [9], acceptedFds := [],
                  nonblockSet := [] } := by
  have hr := readLoop_eq envBadUtf8.sock []
  simp only [List.length_nil, Nat.sub_zero, List.nil_append] at hr
  have hw : isValidUtf8 (envBadUtf8.sock.avail.take 32) = false := by decide
  constructor
  · simp [MyHandler.handle, hr, hw]
  · intro hc
    rw [show MyHandler.handle envBadUtf8 { fd := 9, state := OpState.read } =
        Except.error PanicReason.invalidUtf8 by simp [MyHandler.handle, hr, hw]]
      at hc
    exact Except.noConfusion hc

/-- **C6 (amended).** When a Reading operation fires, the handler drains the
available bytes from the descriptor into the bounded 32-byte buffer with
non-blocking reads until a read would block or returns zero bytes — it
reads exactly the first `min 32 avail` buffered bytes, leaving the rest
behind and the tail behaviour unobserved past the drain — and then,
provided the drained bytes decode as UTF-8 (otherwise the process panics,
see C3), returns `None`, ending the flow: the connection descriptor is
closed by the dispatch and no further operation is registered for it. -/
theorem c6_read_drain_then_none (env : HandlerEnv) (fd : Int)
    (hv : isValidUtf8 (env.sock.avail.take 32) = true) :
    (readLoop env.sock []).1 = env.sock.avail.take 32 ∧
    (readLoop env.sock []).2 =
      { avail := env.sock.avail.drop 32, tail := env.sock.tail } ∧
    MyHandler.handle env { fd := fd, state := OpState.read } =
      Except.ok { next := none, closedFds := [fd], acceptedFds := [],
                  nonblockSet := [] } := by
  have hr := readLoop_eq env.sock []
  simp only [List.length_nil, Nat.sub_zero, List.nil_append] at hr
  refine ⟨by rw [hr], by rw [hr], ?_⟩
  simp [MyHandler.handle, hr, hv]

/-- Witness for C6: the peer sent `b"hello"` and closed; the drain yields
exactly those five bytes and the dispatch finishes the flow. -/
theorem c6_read_drain_then_none_witness :
    (readLoop helloEnv.sock []).1 = helloEnv.sock.avail.take 32 ∧
    (readLoop helloEnv.sock []).2 =
      { avail := helloEnv.sock.avail.drop 32, tail := helloEnv.sock.tail } ∧
    MyHandler.handle helloEnv { fd := 7, state := OpState.read } =
      Except.ok { next := none, closedFds := [7], acceptedFds := [],
                  nonblockSet := [] } :=
  c6_read_drain_then_none helloEnv 7 (by decide)

/-! ## Claim C7 -/

/-- **C7 counterexample.** With 64 bytes available and the 32-byte buffer,
the Reading dispatch does complete without spinning — but it returns
`None` after reading the first 32 bytes: no new Reading operation is
re-registered for the 32 bytes that remain buffered, contradicting the
claimed re-registration for the remainder. -/
theorem c7_counterexample :
    MyHandler.handle env64 { fd := 7, state := OpState.read } =
      Except.ok { next := none, closedFds := [7], acceptedFds := [],
                  nonblockSet := [] } ∧
    (readLoop env64.sock []).1.length = 32 ∧
    (readLoop env64.sock []).2.avail.length = 32 := by
  have hr := readLoop_eq env64.sock []
  simp only [List.length_nil, Nat.sub_zero, List.nil_append] at hr
  have hval : isValidUtf8 (env64.sock.avail.take 32) = true := by decide
  refine ⟨?_, ?_, ?_⟩
  · simp [MyHandler.handle, hr, hval]
  · rw [hr]; decide
  · rw [hr]; decide

/-- **C7 (amended).** When the client has sent more bytes than the
32-byte buffer holds, the Reading dispatch neither spins nor blocks: the
drain loop stops as soon as the buffer is full, having read exactly the
first 32 bytes, and the dispatch completes (provided those bytes decode as
UTF-8) — but it returns `None`: the remainder stays unread in the kernel
buffer and no new Reading operation is re-registered for it. -/
theorem c7_first_chunk_no_rearm (env : HandlerEnv) (fd : Int)
    (hlen : 32 ≤ env.sock.avail.length)
    (hv : isValidUtf8 (env.sock.avail.take 32) = true) :
    (readLoop env.sock []).1 = env.sock.avail.take 32 ∧
    (readLoop env.sock []).1.length = 32 ∧
    (readLoop env.sock []).2.avail = env.sock.avail.drop 32 ∧
    MyHandler.handle env { fd := fd, state := OpState.read } =
      Except.ok { next := none, closedFds := [fd], acceptedFds := [],
                  nonblockSet := [] } := by
  have hr := readLoop_eq env.sock []
  simp only [List.length_nil, Nat.sub_zero, List.nil_append] at hr
  refine ⟨by rw [hr], ?_, by rw [hr], ?_⟩
  · rw [hr]
    simp only [List.length_take]
    omega
  · simp [MyHandler.handle, hr, hv]

/-- Witness for the amended C7, with the 64-byte burst of `'a'`s. -/
theorem c7_first_chunk_no_rearm_witness :
    (readLoop env64.sock []).1 = env64.sock.avail.take 32 ∧
    (readLoop env64.sock []).1.length = 32 ∧
    (readLoop env64.sock []).2.avail = env64.sock.avail.drop 32 ∧
    MyHandler.handle env64 { fd := 9, state := OpState.read } =
      Except.ok { next := none, closedFds := [9], acceptedFds := [],
                  nonblockSet := [] } :=
  c7_first_chunk_no_rearm env64 9 (by decide) (by decide)

/-! ## Claim C10 -/

/-- **C10.** A single Reading dispatch reads at most 32 bytes in total:
the drain loop — a total function, so it always terminates — reads
exactly the first `min 32 avail` buffered bytes; its result is literally
indistinguishable from the one for a peer that closed after sending just
those bytes (a full buffer cannot be told apart from a peer close); the
bytes beyond the first 32 are never read; and no Reading dispatch ever
asks for a further registration — whenever it completes, it returns
`None`, so the connection ends without re-registration. -/
theorem c10_read_bounded_by_buffer (env : HandlerEnv) (fd : Int) :
    (readLoop env.sock []).1.length ≤ 32 ∧
    (readLoop env.sock []).1 =
      (readLoop { avail := env.sock.avail.take 32, tail := ReadTail.eof } []).1 ∧
    (readLoop env.sock []).2.avail = env.sock.avail.drop 32 ∧
    (∀ out, MyHandler.handle env { fd := fd, state := OpState.read } =
      Except.ok out → out.next = none) := by
  have hr := readLoop_eq env.sock []
  simp only [List.length_nil, Nat.sub_zero, List.nil_append] at hr
  refine ⟨?_, ?_, by rw [hr], ?_⟩
  · rw [hr]
    simp only [List.length_take]
    omega
  · rw [hr, readLoop_eq]
    simp [List.take_take]
  · intro out hout
    by_cases hval : isValidUtf8 (readLoop env.sock []).1 = true
    · simp only [MyHandler.handle, hval, if_true, Except.ok.injEq] at hout
      rw [← hout]
    · simp [MyHandler.handle, hval] at hout

/-- Witness for C10, again with the 64-byte burst: 32 bytes read, 32 left
unread, nothing re-registered. -/
theorem c10_read_bounded_by_buffer_witness :
    (readLoop env64.sock []).1.length ≤ 32 ∧
    (readLoop env64.sock []).1 =
      (readLoop { avail := env64.sock.avail.take 32, tail := ReadTail.eof } []).1 ∧
    (readLoop env64.sock []).2.avail = env64.sock.avail.drop 32 ∧
    (∀ out, MyHandler.handle env64 { fd := 11, state := OpState.read } =
      Except.ok out → out.next = none) :=
  c10_read_bounded_by_buffer env64 11

end AsyncKqueue
